import Mathlib

/-
  Verification of the log tailing and shipping pipeline of the
  platform observability agent (src/agent.py, src/log_parser.py,
  src/config.py) against its natural-language specification.

  The embedding is shallow: file contents are lists of characters,
  byte offsets are natural numbers, the wall clock and the external
  date parsing library are explicit parameters, and the two HTTP
  requests a flush can make are modelled by explicit response values.
-/

namespace ObsAgent

/-! ## Timestamps

A parsed timestamp is either the wall clock value captured by
`datetime.now()` at parse time, or the value the external dateutil
library produced from a matched timestamp substring.  The dateutil
call can fail, which is modelled by the `dateOk` predicate parameter
below. -/

inductive Timestamp where
  | wallClock (t : Nat)
  | fromText (s : String)
deriving DecidableEq, Repr

/-! ## Python string helpers -/

/-- The characters Python `str.strip()` removes (ASCII whitespace). -/
def isPyWS (c : Char) : Bool :=
  c = ' ' || c = '\t' || c = '\n' || c = '\r' || c = '\x0b' || c = '\x0c'

/-- Python `str.strip()` on a character list. -/
def pyStripL (l : List Char) : List Char :=
  ((l.dropWhile isPyWS).reverse.dropWhile isPyWS).reverse

/-- Python `str.strip()`. -/
def pyStrip (s : String) : String :=
  String.mk (pyStripL s.data)

/-! ## Timestamp regular expressions (src/log_parser.py lines 9-13)

The three timestamp patterns are fixed-width sequences of character
predicates; `re.search` scans for the leftmost position where the
whole pattern matches. -/

/-- The regex predicate for one digit. -/
def digC (c : Char) : Bool := c.isDigit

/-- The regex predicate for one word character. -/
def wordC (c : Char) : Bool := c.isAlphanum || c = '_'

/-- The regex predicate for one literal character. -/
def litC (x : Char) (c : Char) : Bool := c = x

/-- Match a fixed sequence of character predicates at the head of the
input, returning the matched characters. -/
def matchPat : List (Char → Bool) → List Char → Option (List Char)
  | [], _ => some []
  | _ :: _, [] => none
  | p :: ps, c :: cs =>
    if p c then (matchPat ps cs).map (fun m => c :: m) else none

/-- `re.search` for a fixed-width pattern: try every start position
from the left, returning the first (leftmost) match. -/
def searchPat (pat : List (Char → Bool)) : List Char → Option (List Char)
  | [] => matchPat pat []
  | c :: cs =>
    match matchPat pat (c :: cs) with
    | some m => some m
    | none => searchPat pat cs

/-- Pattern `\d{4}-\d{2}-\d{2} \d{2}:\d{2}:\d{2}`. -/
def tsPattern1 : List (Char → Bool) :=
  [digC, digC, digC, digC, litC '-', digC, digC, litC '-', digC, digC,
   litC ' ', digC, digC, litC ':', digC, digC, litC ':', digC, digC]

/-- Pattern `\d{4}-\d{2}-\d{2}T\d{2}:\d{2}:\d{2}`. -/
def tsPattern2 : List (Char → Bool) :=
  [digC, digC, digC, digC, litC '-', digC, digC, litC '-', digC, digC,
   litC 'T', digC, digC, litC ':', digC, digC, litC ':', digC, digC]

/-- Pattern `\w{3} \d{2} \d{2}:\d{2}:\d{2}`. -/
def tsPattern3 : List (Char → Bool) :=
  [wordC, wordC, wordC, litC ' ', digC, digC,
   litC ' ', digC, digC, litC ':', digC, digC, litC ':', digC, digC]

/-- The timestamp patterns, in source order. -/
def timestampPatterns : List (List (Char → Bool)) :=
  [tsPattern1, tsPattern2, tsPattern3]

/-- The pattern loop of `_extract_timestamp`: for each pattern in
order, search the line; on a match, hand the matched text to dateutil
(`dateOk`) and return its value, falling through to the next pattern
when dateutil raises. -/
def extractTimestampAux (dateOk : String → Bool) (data : List Char) :
    List (List (Char → Bool)) → Option Timestamp
  | [] => none
  | pat :: pats =>
    match searchPat pat data with
    | some m =>
      if dateOk (String.mk m) then some (.fromText (String.mk m))
      else extractTimestampAux dateOk data pats
    | none => extractTimestampAux dateOk data pats

/-- `LogParser._extract_timestamp` (src/log_parser.py lines 39-47). -/
def extractTimestamp (dateOk : String → Bool) (line : String) : Option Timestamp :=
  extractTimestampAux dateOk line.data timestampPatterns

/-! ## Level extraction (src/log_parser.py lines 49-59)

Pattern 1 is `\b(DEBUG|INFO|WARN|WARNING|ERROR|CRITICAL|FATAL)\b`
with `re.IGNORECASE`; pattern 2 is the same alternation wrapped in
literal square brackets.  The Python engine scans start positions
left to right and, at a viable position, tries the alternatives in
their written order, backtracking to the next alternative when the
trailing context fails. -/

/-- The level alternation, in source order. -/
def levelTokens : List String :=
  ["DEBUG", "INFO", "WARN", "WARNING", "ERROR", "CRITICAL", "FATAL"]

/-- Match a token at the head of the input, case-insensitively,
returning the rest of the input after the token. -/
def ciMatchTok : List Char → List Char → Option (List Char)
  | [], rest => some rest
  | _ :: _, [] => none
  | t :: ts, c :: cs => if c.toUpper = t then ciMatchTok ts cs else none

/-- The trailing `\b` of pattern 1: the matched token ends in a word
character, so the boundary holds exactly when the next character is
not a word character (or the input ends). -/
def boundaryAfter : List Char → Bool
  | [] => true
  | c :: _ => !(wordC c)

/-- Try the alternatives in order at one position: the first token
that matches case-insensitively and is followed by a word boundary
wins (Python backtracks to the next alternative otherwise). -/
def findTok (s : List Char) : List String → Option String
  | [] => none
  | tok :: toks =>
    match ciMatchTok tok.data s with
    | some rest => if boundaryAfter rest then some tok else findTok s toks
    | none => findTok s toks

/-- `re.search` for pattern 1.  The boolean argument records whether
the previous character is a word character: the leading `\b` holds at
a position starting a level token exactly when the previous character
is not a word character (the tokens consist of word characters, so a
position whose previous character is a word character cannot start a
match). -/
def searchLevelWord : Bool → List Char → Option String
  | _, [] => none
  | prevW, c :: cs =>
    if prevW then searchLevelWord (wordC c) cs
    else
      match findTok (c :: cs) levelTokens with
      | some tok => some tok
      | none => searchLevelWord (wordC c) cs

/-- Try the bracketed alternatives at one position just after a
literal opening bracket: the token must be followed by a literal
closing bracket. -/
def findTokBr (s : List Char) : List String → Option String
  | [] => none
  | tok :: toks =>
    match ciMatchTok tok.data s with
    | some (c :: _) => if c = ']' then some tok else findTokBr s toks
    | some [] => findTokBr s toks
    | none => findTokBr s toks

/-- `re.search` for pattern 2, the bracketed alternation. -/
def searchLevelBr : List Char → Option String
  | [] => none
  | c :: cs =>
    if c = '[' then
      match findTokBr cs levelTokens with
      | some tok => some tok
      | none => searchLevelBr cs
    else searchLevelBr cs

/-- The normalisation applied to the uppercased matched token
(src/log_parser.py lines 53-57): WARN becomes WARNING and FATAL
becomes CRITICAL. -/
def normalizeLevel (l : String) : String :=
  if l = "WARN" then "WARNING" else if l = "FATAL" then "CRITICAL" else l

/-- `LogParser._extract_level` (src/log_parser.py lines 49-59).  The
matched group uppercased equals the canonical token of the
alternation, so the search functions return that token directly. -/
def extractLevel (line : String) : Option String :=
  match searchLevelWord false line.data with
  | some tok => some (normalizeLevel tok)
  | none =>
    match searchLevelBr line.data with
    | some tok => some (normalizeLevel tok)
    | none => none

/-! ## Line parsing (src/log_parser.py lines 20-37) -/

/-- The record built by `LogParser.parse_line`.  The metadata map it
initialises empty is carried at the agent level (`AgentRecord`). -/
structure ParsedRecord where
  timestamp : Timestamp
  level : String
  message : String
  rawMessage : String
deriving DecidableEq, Repr

/-- `LogParser.parse_line`: defaults are the wall clock and INFO; the
message and raw message are the stripped line; a recognised timestamp
or level overrides the default.  The function is total: the only
fallible call (dateutil) is wrapped in try/except in the source. -/
def parseLine (dateOk : String → Bool) (now : Timestamp) (line : String) :
    ParsedRecord :=
  let base : ParsedRecord :=
    { timestamp := now, level := "INFO",
      message := pyStrip line, rawMessage := pyStrip line }
  let withTs :=
    match extractTimestamp dateOk line with
    | some t => { base with timestamp := t }
    | none => base
  match extractLevel line with
  | some l => { withTs with level := l }
  | none => withTs

/-! ## The tailer (src/agent.py lines 149-204) -/

/-- A buffered record as built in `_check_file_for_new_content`: the
parsed record plus machine id, hostname and the source file path
attached to the metadata. -/
structure AgentRecord where
  parsed : ParsedRecord
  machineId : String
  hostname : String
  sourceFile : String
deriving DecidableEq, Repr

/-- The per-line enrichment of the tailer loop body (src/agent.py
lines 178-185) applied to one stripped line. -/
def mkAgentRecord (dateOk : String → Bool) (now : Timestamp)
    (machineId hostname sourceFile : String) (line : String) : AgentRecord :=
  { parsed := parseLine dateOk now line,
    machineId := machineId, hostname := hostname, sourceFile := sourceFile }

/-- Python text-file line iteration (`for line in f`): split into
lines, each keeping its trailing newline; a final line without a
terminator is still yielded. -/
def splitFileLines : List Char → List (List Char)
  | [] => []
  | c :: rest =>
    if c = '\n' then ['\n'] :: splitFileLines rest
    else
      match splitFileLines rest with
      | [] => [[c]]
      | l :: ls => (c :: l) :: ls

/-- The records forwarded to the buffer by one read of new content:
each yielded line is stripped, blank lines are skipped, and each
remaining line is parsed and enriched (src/agent.py lines 172-188). -/
def forwardNewLines (dateOk : String → Bool) (now : Timestamp)
    (machineId hostname sourceFile : String) (newContent : List Char) :
    List AgentRecord :=
  (((splitFileLines newContent).map pyStripL).filter (fun l => l ≠ [])).map
    (fun l => mkAgentRecord dateOk now machineId hostname sourceFile
      (String.mk l))

/-- `_check_file_for_new_content` (src/agent.py lines 149-204) for a
single file on one poll tick.  The file is `none` when the path does
not exist.  Returns the new stored position together with the records
forwarded to the buffer.  After reading, the stored position becomes
`f.tell()`, which is the full current size; when nothing is read the
stored position is left untouched. -/
def checkFileForNewContent (dateOk : String → Bool) (now : Timestamp)
    (machineId hostname filePath : String) (file : Option (List Char))
    (storedPos : Nat) : Nat × List AgentRecord :=
  match file with
  | none => (storedPos, [])
  | some content =>
    let currentSize := content.length
    let lastPosition := if currentSize < storedPos then 0 else storedPos
    if currentSize ≤ lastPosition then (storedPos, [])
    else
      (currentSize,
       forwardNewLines dateOk now machineId hostname filePath
         (content.drop lastPosition))

/-! ## Startup position initialisation (src/agent.py lines 118-133) -/

/-- `_initialize_file_positions`: for each configured path, an
accessible file starts at its end-of-file offset (`seek(0, 2)` then
`tell()`), an inaccessible path (or an exception) starts at 0.  The
filesystem is modelled by a function returning the size of an
accessible file, or `none`.  No checkpoint is consulted anywhere in
the source. -/
def initFilePositions : List String → (String → Option Nat) → List (String × Nat)
  | [], _ => []
  | f :: fs, fileSize =>
    (f, match fileSize f with
        | some size => size
        | none => 0) :: initFilePositions fs fileSize

/-- Lookup of a stored offset by path in an association list. -/
def posLookup : List (String × Nat) → String → Option Nat
  | [], _ => none
  | (k, v) :: rest, f => if k = f then some v else posLookup rest f

/-- Modelled from the spec: the Position Store of section 4.5 (its
`save` and `load` operations and the on-disk checkpoint file) has no
counterpart anywhere in the source, so the store is modelled from the
words of the spec.  A checkpoint file is absent, present but
unparseable, or a stored path-to-offset mapping. -/
inductive Checkpoint where
  | absent
  | unparseable
  | stored (m : List (String × Nat))
deriving DecidableEq, Repr

/-- Modelled from the spec: `save(snapshot)` writes the complete
current mapping via whole-file replace. -/
def saveCheckpoint (m : List (String × Nat)) : Checkpoint :=
  .stored m

/-- Modelled from the spec: `load()` reads the checkpoint file if
present and returns the path-to-offset mapping, defaulting to empty
on absence or parse failure. -/
def loadCheckpoint : Checkpoint → List (String × Nat)
  | .absent => []
  | .unparseable => []
  | .stored m => m

/-- The startup initialisation the claim describes, written from the
words of the spec for comparison with `initFilePositions`: a path
present in the checkpoint is restored from it, a previously-unseen
path starts at end-of-file. -/
def claimedInitFilePositions (checkpoint : List (String × Nat)) :
    List String → (String → Option Nat) → List (String × Nat)
  | [], _ => []
  | f :: fs, fileSize =>
    (f, match posLookup checkpoint f with
        | some off => off
        | none =>
          match fileSize f with
          | some size => size
          | none => 0) :: claimedInitFilePositions checkpoint fs fileSize

/-! ## The shipper (src/agent.py lines 206-250) -/

/-- The authentication transport of one HTTP attempt: bearer token in
the Authorization header, or the token as the api_key query
parameter. -/
inductive AuthMode where
  | header
  | query
deriving DecidableEq, Repr

/-- The outcome of one `requests.post` call: an exception (timeout,
connection error, and so on) or an HTTP status code. -/
inductive NetResult where
  | exc
  | status (code : Nat)
deriving DecidableEq, Repr

/-- One attempted POST of the log batch: which transport carried
which token. -/
structure Attempt where
  mode : AuthMode
  token : String
deriving DecidableEq, Repr

/-- The overall outcome of a flush transmission: the first response
unless it was a 401, in which case the fallback response decides. -/
def finalOutcome (first second : NetResult) : NetResult :=
  match first with
  | .exc => .exc
  | .status c => if c = 401 then second else .status c

/-- `_flush_logs` (src/agent.py lines 206-250).  An empty buffer is a
no-op.  Otherwise the buffer is drained (copy then clear), the batch
is POSTed with the bearer-token header; a 401 answer triggers one
retry with the token as a query parameter; a final 201 drops the
batch, and any other outcome (other status, or an exception on either
request) re-extends the buffer with the drained batch.  Returns the
buffer after the flush together with the list of attempts made. -/
def flushLogs (buffer : List AgentRecord) (token : String)
    (first second : NetResult) : List AgentRecord × List Attempt :=
  match buffer with
  | [] => ([], [])
  | _ :: _ =>
    let logsToSend := buffer
    match first with
    | .exc => (logsToSend, [⟨.header, token⟩])
    | .status c =>
      if c = 401 then
        match second with
        | .exc => (logsToSend, [⟨.header, token⟩, ⟨.query, token⟩])
        | .status c2 =>
          if c2 = 201 then ([], [⟨.header, token⟩, ⟨.query, token⟩])
          else (logsToSend, [⟨.header, token⟩, ⟨.query, token⟩])
      else if c = 201 then ([], [⟨.header, token⟩])
      else (logsToSend, [⟨.header, token⟩])

/-! ## The buffer under interleaved execution (src/agent.py lines
187, 191-192, 211-212)

`log_buffer` is a plain Python list shared by the monitor thread
(`append`) and the flush thread (`copy()` then `clear()`).  The drain
is two separate statements, so the interleaved semantics is modelled
by three atomic events; `pending` holds the copy taken by a flush
whose clear has not happened yet. -/

/-- A record in the buffer model (abstracted to a number). -/
abbrev BufRecord := Nat

/-- One atomic event on the shared buffer. -/
inductive BufEvent where
  | append (r : BufRecord)
  | flushCopy
  | flushClear
deriving DecidableEq, Repr

/-- The shared state: the live list, the copy a flush holds between
its copy and clear statements, and the drains completed so far. -/
structure BufState where
  buffer : List BufRecord
  pending : Option (List BufRecord)
  drains : List (List BufRecord)
deriving DecidableEq, Repr

/-- One step of the interleaved semantics.  `append` is
`self.log_buffer.append(...)`; `flushCopy` is
`logs_to_send = self.log_buffer.copy()`; `flushClear` is
`self.log_buffer.clear()`, completing the drain that holds the
copy. -/
def bufStep (s : BufState) : BufEvent → BufState
  | .append r => { s with buffer := s.buffer ++ [r] }
  | .flushCopy => { s with pending := some s.buffer }
  | .flushClear =>
    match s.pending with
    | some t => { buffer := [], pending := none, drains := s.drains ++ [t] }
    | none => s

/-- Run a schedule of events from a state. -/
def bufRun (s : BufState) : List BufEvent → BufState
  | [] => s
  | e :: es => bufRun (bufStep s e) es

/-- A drain whose copy and clear are adjacent in the schedule, so no
append interleaves inside it. -/
inductive AtomicBufEvent where
  | append (r : BufRecord)
  | drain
deriving DecidableEq, Repr

/-- An atomic event expanded into the underlying interleaved events:
a drain is the copy immediately followed by the clear. -/
def atomicEvents : AtomicBufEvent → List BufEvent
  | .append r => [.append r]
  | .drain => [.flushCopy, .flushClear]

/-- The interleaved schedule of a list of atomic events. -/
def atomicSchedule (es : List AtomicBufEvent) : List BufEvent :=
  (es.map atomicEvents).flatten

/-- The records appended by a list of atomic events, in order. -/
def appendsOf : List AtomicBufEvent → List BufRecord
  | [] => []
  | .append r :: es => r :: appendsOf es
  | .drain :: es => appendsOf es

/-- Concatenation of all completed drains. -/
def joinAll : List (List BufRecord) → List BufRecord
  | [] => []
  | l :: ls => l ++ joinAll ls

/-- Occurrence count of a record in a list of agent records. -/
def countRec (r : AgentRecord) : List AgentRecord → Nat
  | [] => 0
  | x :: xs => (if x = r then 1 else 0) + countRec r xs

/-! ## Concrete scenario data -/

/-- The dateutil model used in concrete scenarios: every matched
timestamp text parses successfully. -/
def dateOkAll : String → Bool := fun _ => true

/-- The wall clock used in concrete scenarios. -/
def nowClock : Timestamp := .wallClock 0

/-- The file content of the section 8 scenario: the two log lines and
a blank line, each with its newline terminator. -/
def scenarioContent : List Char :=
  ("2024-01-01 10:00:00 INFO hello\n2024-01-01 10:00:01 ERROR boom\n\n").data

/-- The result of one poll tick over the scenario file starting from
offset 0. -/
def scenarioResult : Nat × List AgentRecord :=
  checkFileForNewContent dateOkAll nowClock "m1" "h1" "/var/log/app.log"
    (some scenarioContent) 0

/-! ## Helper lemmas -/

/-- Unfolding of `splitFileLines` at a head character that is not a
newline. -/
theorem splitFileLines_cons_ne (c : Char) (cs : List Char) (hc : c ≠ '\n') :
    splitFileLines (c :: cs)
      = match splitFileLines cs with
        | [] => [[c]]
        | l :: ls => (c :: l) :: ls := by
  simp only [splitFileLines, if_neg hc]

/-- Splitting a chunk with no interior newline followed by a newline
and a tail yields that chunk (with its terminator) as the first
line. -/
theorem splitFileLines_chunk (l tail : List Char) (h : '\n' ∉ l) :
    splitFileLines (l ++ '\n' :: tail) = (l ++ ['\n']) :: splitFileLines tail := by
  induction l with
  | nil => simp [splitFileLines]
  | cons c cs ih =>
    have hc : c ≠ '\n' := fun hc => h (hc ▸ List.mem_cons_self c cs)
    have hcs : '\n' ∉ cs := fun hm => h (List.mem_cons_of_mem c hm)
    rw [List.cons_append, splitFileLines_cons_ne c _ hc, ih hcs]
    rfl

/-- A nonempty content with no newline is yielded as one
(unterminated) line. -/
theorem splitFileLines_no_newline (l : List Char) (h1 : l ≠ []) (h2 : '\n' ∉ l) :
    splitFileLines l = [l] := by
  induction l with
  | nil => exact absurd rfl h1
  | cons c cs ih =>
    have hc : c ≠ '\n' := fun hc => h2 (hc ▸ List.mem_cons_self c cs)
    have hcs : '\n' ∉ cs := fun hm => h2 (List.mem_cons_of_mem c hm)
    cases cs with
    | nil => simp [splitFileLines, if_neg hc]
    | cons d ds =>
      rw [splitFileLines_cons_ne c _ hc, ih (by simp) hcs]

/-- `countRec` distributes over concatenation. -/
theorem countRec_append (r : AgentRecord) (a b : List AgentRecord) :
    countRec r (a ++ b) = countRec r a + countRec r b := by
  induction a with
  | nil => simp [countRec]
  | cons x xs ih => simp [countRec, ih]; omega

/-- A member is counted at least once. -/
theorem countRec_pos {r : AgentRecord} {xs : List AgentRecord} (h : r ∈ xs) :
    1 ≤ countRec r xs := by
  induction xs with
  | nil => simp at h
  | cons x rest ih =>
    rcases List.mem_cons.mp h with rfl | hmem
    · simp [countRec]
    · simp only [countRec]
      have := ih hmem
      omega

/-- `joinAll` distributes over concatenation. -/
theorem joinAll_append (a b : List (List BufRecord)) :
    joinAll (a ++ b) = joinAll a ++ joinAll b := by
  induction a with
  | nil => simp [joinAll]
  | cons x xs ih => simp [joinAll, ih]

/-- If every pattern fails to match, the timestamp pattern loop
returns none. -/
theorem extractTimestampAux_none (dateOk : String → Bool) (data : List Char)
    (pats : List (List (Char → Bool)))
    (h : ∀ pat ∈ pats, searchPat pat data = none) :
    extractTimestampAux dateOk data pats = none := by
  induction pats with
  | nil => rfl
  | cons p ps ih =>
    simp only [extractTimestampAux, h p (List.mem_cons_self p ps)]
    exact ih (fun q hq => h q (List.mem_cons_of_mem p hq))

/-- The token returned by the alternation at one position is one of
the alternatives. -/
theorem findTok_mem {s : List Char} {toks : List String} {tok : String}
    (h : findTok s toks = some tok) : tok ∈ toks := by
  induction toks with
  | nil => simp [findTok] at h
  | cons t ts ih =>
    cases hm : ciMatchTok t.data s with
    | none =>
      simp only [findTok, hm] at h
      exact List.mem_cons_of_mem t (ih h)
    | some rest =>
      simp only [findTok, hm] at h
      by_cases hb : boundaryAfter rest = true
      · rw [if_pos hb] at h
        exact (Option.some_inj.mp h) ▸ List.mem_cons_self t ts
      · rw [if_neg hb] at h
        exact List.mem_cons_of_mem t (ih h)

/-- The token returned by the bracketed alternation at one position
is one of the alternatives. -/
theorem findTokBr_mem {s : List Char} {toks : List String} {tok : String}
    (h : findTokBr s toks = some tok) : tok ∈ toks := by
  induction toks with
  | nil => simp [findTokBr] at h
  | cons t ts ih =>
    cases hm : ciMatchTok t.data s with
    | none =>
      simp only [findTokBr, hm] at h
      exact List.mem_cons_of_mem t (ih h)
    | some rest =>
      cases rest with
      | nil =>
        simp only [findTokBr, hm] at h
        exact List.mem_cons_of_mem t (ih h)
      | cons c cs =>
        simp only [findTokBr, hm] at h
        by_cases hc : c = ']'
        · rw [if_pos hc] at h
          exact (Option.some_inj.mp h) ▸ List.mem_cons_self t ts
        · rw [if_neg hc] at h
          exact List.mem_cons_of_mem t (ih h)

/-- The word-boundary search only returns tokens of the
alternation. -/
theorem searchLevelWord_mem {b : Bool} {cs : List Char} {tok : String}
    (h : searchLevelWord b cs = some tok) : tok ∈ levelTokens := by
  induction cs generalizing b with
  | nil => simp [searchLevelWord] at h
  | cons c rest ih =>
    by_cases hb : b = true
    · rw [searchLevelWord, if_pos hb] at h
      exact ih h
    · cases hf : findTok (c :: rest) levelTokens with
      | none =>
        rw [searchLevelWord, if_neg hb] at h
        simp only [hf] at h
        exact ih h
      | some t =>
        rw [searchLevelWord, if_neg hb] at h
        simp only [hf] at h
        exact (Option.some_inj.mp h) ▸ findTok_mem hf

/-- The bracket search only returns tokens of the alternation. -/
theorem searchLevelBr_mem {cs : List Char} {tok : String}
    (h : searchLevelBr cs = some tok) : tok ∈ levelTokens := by
  induction cs with
  | nil => simp [searchLevelBr] at h
  | cons c rest ih =>
    by_cases hc : c = '['
    · cases hf : findTokBr rest levelTokens with
      | none =>
        rw [searchLevelBr, if_pos hc] at h
        simp only [hf] at h
        exact ih h
      | some t =>
        rw [searchLevelBr, if_pos hc] at h
        simp only [hf] at h
        exact (Option.some_inj.mp h) ▸ findTokBr_mem hf
    · rw [searchLevelBr, if_neg hc] at h
      exact ih h

/-- Normalisation maps every token of the alternation into the five
canonical levels. -/
theorem normalizeLevel_mem {tok : String} (h : tok ∈ levelTokens) :
    normalizeLevel tok ∈ ["DEBUG", "INFO", "WARNING", "ERROR", "CRITICAL"] := by
  simp only [levelTokens, List.mem_cons, List.not_mem_nil, or_false] at h
  rcases h with rfl | rfl | rfl | rfl | rfl | rfl | rfl <;> decide

/-- A concrete record used to instantiate flush statements. -/
def sampleRecord : AgentRecord :=
  mkAgentRecord dateOkAll nowClock "m1" "h1" "/var/log/app.log" "x"

/-! ## Claim C1 -/

/-- Claim C1, counterexample: the spec-modelled Position Store does
round-trip, but at startup the checkpoint is not restored.  With a
checkpoint holding offset 5 for `a.log` and the file accessible at
size 10, `_initialize_file_positions` yields offset 10 (end-of-file),
not the checkpointed 5 the claim requires. -/
theorem c1_checkpoint_restore_counterexample :
    loadCheckpoint (saveCheckpoint [("a.log", 5)]) = [("a.log", 5)]
    ∧ initFilePositions ["a.log"] (fun _ => some 10) = [("a.log", 10)]
    ∧ claimedInitFilePositions [("a.log", 5)] ["a.log"] (fun _ => some 10)
        = [("a.log", 5)]
    ∧ initFilePositions ["a.log"] (fun _ => some 10)
        ≠ claimedInitFilePositions [("a.log", 5)] ["a.log"] (fun _ => some 10) := by
  decide

/-- Claim C1 as amended: saving a mapping through the (spec-modelled)
Position Store and loading it back returns an equal mapping; at agent
startup no checkpoint is consulted — every configured path starts at
its current end-of-file offset when accessible, and at offset 0
otherwise. -/
theorem c1_checkpoint_amended :
    (∀ m : List (String × Nat), loadCheckpoint (saveCheckpoint m) = m)
    ∧ (∀ (files : List String) (fileSize : String → Option Nat) (f : String),
        f ∈ files →
        posLookup (initFilePositions files fileSize) f
          = some ((fileSize f).getD 0)) := by
  constructor
  · intro m
    rfl
  · intro files fileSize f hf
    induction files with
    | nil => simp at hf
    | cons g gs ih =>
      by_cases hg : g = f
      · subst hg
        simp only [initFilePositions, posLookup, if_pos rfl]
        cases fileSize g <;> rfl
      · rcases List.mem_cons.mp hf with rfl | hmem
        · exact absurd rfl hg
        · simp only [initFilePositions, posLookup, if_neg hg]
          exact ih hmem

/-- Witness for the amended claim C1 at a concrete input. -/
theorem c1_checkpoint_amended_witness :
    posLookup (initFilePositions ["a.log", "b.log"] (fun _ => some 10)) "b.log"
      = some 10 := by
  have h := c1_checkpoint_amended.2 ["a.log", "b.log"] (fun _ => some 10)
    "b.log" (by simp)
  simpa using h

/-! ## Claim C2 -/

/-- Claim C2, counterexample: there is no deduplication.  The file
first holds `dup\nmore\n` and is read from offset 0 (the line `dup`
is read at offset 0); it is then rotated and holds `dup\n` while the
stored offset is 9, so the truncation resets the read to offset 0 and
the identical line `dup` is read at offset 0 again.  The same
(path, offset, content) tuple is submitted twice within any window
and two records are forwarded to the buffer, not one. -/
theorem c2_dedup_counterexample :
    (checkFileForNewContent dateOkAll nowClock "m1" "h1" "/var/log/app.log"
        (some ("dup\nmore\n").data) 0).fst = 9
    ∧ countRec
        (mkAgentRecord dateOkAll nowClock "m1" "h1" "/var/log/app.log" "dup")
        ((checkFileForNewContent dateOkAll nowClock "m1" "h1" "/var/log/app.log"
            (some ("dup\nmore\n").data) 0).snd
          ++ (checkFileForNewContent dateOkAll nowClock "m1" "h1"
              "/var/log/app.log" (some ("dup\n").data) 9).snd) = 2
    ∧ (2 : Nat) ≠ 1 := by
  decide

/-! ## Claim C4 -/

/-- Claim C4: flush failure atomicity.  For a non-empty buffer, when
the overall outcome of the transmission is anything other than HTTP
status 201 (any other status, or an exception on either request) the
buffer after the flush is exactly the drained batch — every record is
re-admitted and none is lost; on status 201 the batch is removed and
the buffer is left empty. -/
theorem c4_flush_failure_atomicity (buffer : List AgentRecord) (token : String)
    (first second : NetResult) (hne : buffer ≠ []) :
    (finalOutcome first second ≠ .status 201 →
      (flushLogs buffer token first second).fst = buffer)
    ∧ (finalOutcome first second = .status 201 →
      (flushLogs buffer token first second).fst = []) := by
  rcases buffer with _ | ⟨b, bs⟩
  · exact absurd rfl hne
  · rcases first with _ | c
    · constructor
      · intro _
        rfl
      · intro h
        simp [finalOutcome] at h
    · by_cases h1 : c = 401
      · subst h1
        rcases second with _ | c2
        · constructor
          · intro _
            simp [flushLogs]
          · intro h
            simp [finalOutcome] at h
        · by_cases h2 : c2 = 201
          · subst h2
            constructor
            · intro h
              simp [finalOutcome] at h
            · intro _
              simp [flushLogs]

          · constructor
            · intro _
              simp [flushLogs, h2]
            · intro h
              simp [finalOutcome] at h
              exact absurd h h2
      · by_cases h2 : c = 201
        · subst h2
          constructor
          · intro h
            simp [finalOutcome] at h
          · intro _
            simp [flushLogs]
        · constructor
          · intro _
            simp [flushLogs, h1, h2]
          · intro h
            simp [finalOutcome, h1] at h
            exact absurd h h2

/-- Witness for claim C4 at concrete inputs: a 500 answer re-admits
the drained batch. -/
theorem c4_flush_failure_atomicity_witness :
    (flushLogs [sampleRecord] "tok" (.status 500) (.status 500)).fst
      = [sampleRecord] :=
  (c4_flush_failure_atomicity [sampleRecord] "tok" (.status 500) (.status 500)
    (by simp)).1 (by decide)

/-! ## Claim C5 -/

/-- Claim C5: authentication fallback.  For a non-empty buffer, a 401
answer to the initial bearer-token-header request triggers exactly
one immediate retry carrying the same token as a query parameter, and
the outcome (success on 201, failure otherwise) is decided only by
that fallback response; any other first status, and an exception,
produce no fallback attempt. -/
theorem c5_auth_fallback (buffer : List AgentRecord) (token : String)
    (first second : NetResult) (hne : buffer ≠ []) :
    (first = .status 401 →
      (flushLogs buffer token first second).snd
        = [⟨.header, token⟩, ⟨.query, token⟩]
      ∧ (flushLogs buffer token first second).fst
        = (if second = .status 201 then [] else buffer))
    ∧ (∀ c : Nat, first = .status c → c ≠ 401 →
        (flushLogs buffer token first second).snd = [⟨.header, token⟩])
    ∧ (first = .exc →
        (flushLogs buffer token first second).snd = [⟨.header, token⟩]) := by
  rcases buffer with _ | ⟨b, bs⟩
  · exact absurd rfl hne
  · refine ⟨?_, ?_, ?_⟩
    · rintro rfl
      rcases second with _ | c2
      · constructor
        · simp [flushLogs]
        · simp [flushLogs]
      · by_cases h2 : c2 = 201
        · subst h2
          constructor
          · simp [flushLogs]
          · simp [flushLogs]
        · constructor
          · simp [flushLogs, h2]
          · have : (NetResult.status c2 = NetResult.status 201) = False := by
              simp [h2]
            simp [flushLogs, h2, this]
    · rintro c rfl hc
      simp only [flushLogs, if_neg hc]
      by_cases h2 : c = 201 <;> simp [h2]
    · rintro rfl
      rfl

/-- Witness for claim C5 at a concrete input: a 401 first answer
yields the header attempt followed by the query-parameter attempt
with the same token. -/
theorem c5_auth_fallback_witness :
    (flushLogs [sampleRecord] "tok" (.status 401) (.status 500)).snd
      = [⟨.header, "tok"⟩, ⟨.query, "tok"⟩] :=
  ((c5_auth_fallback [sampleRecord] "tok" (.status 401) (.status 500)
    (by simp)).1 rfl).1

/-! ## Claim C6 -/

/-- Claim C6: rotation detection.  On a poll tick over an existing
file: if the current size is strictly below the stored offset the
read cursor is reset to 0 and, when there is anything to read,
reading resumes from the file start (the forwarded records are those
of the whole content) with the stored offset advancing to the current
size; and whenever the current size is less than or equal to the
(possibly reset) cursor — a rotated empty file, or an unchanged size —
nothing is read and no record is forwarded. -/
theorem c6_rotation_detection (dateOk : String → Bool) (now : Timestamp)
    (machineId hostname filePath : String) (content : List Char) (stored : Nat) :
    (content.length < stored →
      checkFileForNewContent dateOk now machineId hostname filePath
          (some content) stored
        = if content.length = 0 then (stored, [])
          else (content.length,
                forwardNewLines dateOk now machineId hostname filePath content))
    ∧ (content.length = stored →
      checkFileForNewContent dateOk now machineId hostname filePath
          (some content) stored
        = (stored, [])) := by
  constructor
  · intro h
    simp only [checkFileForNewContent, if_pos h]
    by_cases h0 : content.length = 0
    · rw [if_pos (Nat.le_of_eq h0), if_pos h0]
    · rw [if_neg (by omega), if_neg h0, List.drop_zero]
  · intro h
    simp only [checkFileForNewContent, if_neg (by omega : ¬content.length < stored)]
    rw [if_pos (Nat.le_of_eq h)]

/-- Witness for claim C6 at concrete inputs: a file truncated to
`x\n` below a stored offset of 5 is re-read from the start, and an
unchanged file is not read. -/
theorem c6_rotation_detection_witness :
    checkFileForNewContent dateOkAll nowClock "m1" "h1" "/var/log/app.log"
        (some ("x\n").data) 5
      = (2, forwardNewLines dateOkAll nowClock "m1" "h1" "/var/log/app.log"
          ("x\n").data)
    ∧ checkFileForNewContent dateOkAll nowClock "m1" "h1" "/var/log/app.log"
        (some ("ab").data) 2
      = (2, []) := by
  constructor
  · have h := (c6_rotation_detection dateOkAll nowClock "m1" "h1"
      "/var/log/app.log" ("x\n").data 5).1 (by decide)
    simpa using h
  · exact (c6_rotation_detection dateOkAll nowClock "m1" "h1"
      "/var/log/app.log" ("ab").data 2).2 (by decide)

/-! ## Claim C3 -/

/-- Claim C3, counterexample: a file whose content is the single
unterminated line `abc` (no trailing newline), polled from offset 0,
forwards that incomplete line immediately and advances the stored
cursor to 3 — the end of the file, past the incomplete line — where
the claim requires no forwarding and an unmoved cursor. -/
theorem c3_incomplete_line_counterexample :
    checkFileForNewContent dateOkAll nowClock "m1" "h1" "/var/log/app.log"
        (some ("abc").data) 0
      = (3, [mkAgentRecord dateOkAll nowClock "m1" "h1" "/var/log/app.log" "abc"])
    ∧ (3 : Nat) ≠ 0
    ∧ [mkAgentRecord dateOkAll nowClock "m1" "h1" "/var/log/app.log" "abc"]
        ≠ ([] : List AgentRecord) := by
  decide

/-- Claim C3 as amended: a trailing line without a terminator is
forwarded immediately on the tick that observes it (Python file
iteration yields the unterminated final line), and the stored cursor
advances to end-of-file, past the incomplete line; the remainder of
the line, once written, is read later as a separate line.  Stated for
a file holding one unterminated, non-blank line. -/
theorem c3_incomplete_line_amended (dateOk : String → Bool) (now : Timestamp)
    (machineId hostname filePath : String) (t : List Char)
    (h1 : '\n' ∉ t) (h2 : pyStripL t ≠ []) :
    checkFileForNewContent dateOk now machineId hostname filePath
        (some t) 0
      = (t.length,
         [mkAgentRecord dateOk now machineId hostname filePath
            (String.mk (pyStripL t))]) := by
  have hne : t ≠ [] := by
    intro h
    exact h2 (by simp [h, pyStripL])
  have hl : 0 < t.length := List.length_pos.mpr hne
  simp only [checkFileForNewContent]
  rw [if_neg (by omega : ¬t.length < 0), if_neg (by omega : ¬t.length ≤ 0),
    List.drop_zero]
  simp [forwardNewLines, splitFileLines_no_newline t hne h1, h2]

/-- Witness for the amended claim C3 at a concrete input. -/
theorem c3_incomplete_line_amended_witness :
    checkFileForNewContent dateOkAll nowClock "m1" "h1" "/var/log/app.log"
        (some ("pqr").data) 0
      = (3, [mkAgentRecord dateOkAll nowClock "m1" "h1" "/var/log/app.log"
          (String.mk (pyStripL ("pqr").data))]) :=
  c3_incomplete_line_amended dateOkAll nowClock "m1" "h1" "/var/log/app.log"
    ("pqr").data (by decide) (by decide)

/-! ## Claim C7 -/

/-- Claim C7, counterexample: the buffer operations hold no lock —
the drain is a non-atomic copy statement followed by a clear
statement.  Starting from a buffer holding record 0, the interleaving
copy, append 1, clear loses record 1: the final state has an empty
buffer and a single drain `[0]`, so the appended record 1 appears in
no drain result and not in the live buffer. -/
theorem c7_buffer_interleaving_counterexample :
    bufRun ⟨[0], none, []⟩ [.flushCopy, .append 1, .flushClear]
      = ⟨[], none, [[0]]⟩
    ∧ (1 : BufRecord) ∉ joinAll [[0]]
    ∧ (1 : BufRecord) ∉ ([] : List BufRecord) := by
  decide

/-- Claim C7 as amended: the code takes no lock, and an append
interleaved between the copy and the clear of a drain is lost.  When
no append interleaves there — every drain executes its copy
immediately followed by its clear — conservation holds: the
concatenation of all drain results followed by the live buffer equals
the initial drains and buffer followed by the appended records in
order, so no record is lost or duplicated. -/
theorem c7_buffer_amended (es : List AtomicBufEvent) (s0 : BufState)
    (h : s0.pending = none) :
    joinAll (bufRun s0 (atomicSchedule es)).drains
        ++ (bufRun s0 (atomicSchedule es)).buffer
      = joinAll s0.drains ++ s0.buffer ++ appendsOf es
    ∧ (bufRun s0 (atomicSchedule es)).pending = none := by
  induction es generalizing s0 with
  | nil =>
    simp [atomicSchedule, bufRun, appendsOf, h]
  | cons e es ih =>
    cases e with
    | append r =>
      have hsch : atomicSchedule (.append r :: es)
          = .append r :: atomicSchedule es := by
        simp [atomicSchedule, atomicEvents]
      rw [hsch, bufRun]
      obtain ⟨hc, hp⟩ := ih { s0 with buffer := s0.buffer ++ [r] } h
      refine ⟨?_, hp⟩
      rw [show bufStep s0 (.append r) = { s0 with buffer := s0.buffer ++ [r] }
        from rfl, hc]
      simp [appendsOf, List.append_assoc]
    | drain =>
      have hsch : atomicSchedule (.drain :: es)
          = .flushCopy :: .flushClear :: atomicSchedule es := by
        simp [atomicSchedule, atomicEvents]
      rw [hsch, bufRun, bufRun]
      have hstep : bufStep (bufStep s0 .flushCopy) .flushClear
          = ⟨[], none, s0.drains ++ [s0.buffer]⟩ := rfl
      rw [hstep]
      obtain ⟨hc, hp⟩ := ih ⟨[], none, s0.drains ++ [s0.buffer]⟩ rfl
      refine ⟨?_, hp⟩
      rw [hc]
      simp [joinAll_append, joinAll, appendsOf, List.append_assoc]

/-- Witness for the amended claim C7 at a concrete input. -/
theorem c7_buffer_amended_witness :
    joinAll (bufRun ⟨[1], none, []⟩
          (atomicSchedule [.append 2, .drain, .append 3])).drains
        ++ (bufRun ⟨[1], none, []⟩
          (atomicSchedule [.append 2, .drain, .append 3])).buffer
      = [1, 2, 3] := by
  have h := (c7_buffer_amended [.append 2, .drain, .append 3]
    ⟨[1], none, []⟩ rfl).1
  rw [h]
  decide

/-! ## Claim C8 -/

/-- Claim C8, counterexample: after appending the two log lines and a
blank line, one poll tick does forward exactly two records with
levels INFO and ERROR and drops the blank line, but the stored offset
becomes 63 — the full byte length consumed including the blank line
terminator — while the byte length of the two non-blank lines with
their terminators is 62, so the offset the claim states is wrong. -/
theorem c8_scenario_counterexample :
    scenarioResult.fst = 63
    ∧ (("2024-01-01 10:00:00 INFO hello\n").length
        + ("2024-01-01 10:00:01 ERROR boom\n").length = 62)
    ∧ (63 : Nat) ≠ 62
    ∧ scenarioResult.snd.map (fun r => r.parsed.level) = ["INFO", "ERROR"] := by
  decide

/-- Claim C8 as amended: one poll tick over the scenario file
forwards exactly two ParsedRecords — level INFO with message
`2024-01-01 10:00:00 INFO hello` and timestamp parsed from its
leading text, and level ERROR with message
`2024-01-01 10:00:01 ERROR boom` — drops the blank line, and leaves
the stored offset at 63, the byte length of everything consumed
including the blank line terminator (the full file size). -/
theorem c8_scenario_amended :
    scenarioResult
      = (63,
         [{ parsed := { timestamp := .fromText "2024-01-01 10:00:00",
                        level := "INFO",
                        message := "2024-01-01 10:00:00 INFO hello",
                        rawMessage := "2024-01-01 10:00:00 INFO hello" },
            machineId := "m1", hostname := "h1",
            sourceFile := "/var/log/app.log" },
          { parsed := { timestamp := .fromText "2024-01-01 10:00:01",
                        level := "ERROR",
                        message := "2024-01-01 10:00:01 ERROR boom",
                        rawMessage := "2024-01-01 10:00:01 ERROR boom" },
            machineId := "m1", hostname := "h1",
            sourceFile := "/var/log/app.log" }])
    ∧ scenarioContent.length = 63 := by
  decide

/-- Claim C2 as amended: the code performs no deduplication and keeps
no window of content hashes; every complete non-blank line observed
is forwarded unconditionally, so re-reading the same
(path, offset, content) tuple — here, after a rotation whose new
content starts with the same line at the same offset — forwards a
second identical record to the buffer instead of exactly one.  The
first tick reads `l` (newline-terminated, followed by more content)
from offset 0 and stores the file length; the second tick sees the
rotated file holding only `l` with its newline, whose size is below
the stored offset, resets to 0 and reads `l` at offset 0 again. -/
theorem c2_no_dedup_amended (dateOk : String → Bool) (now : Timestamp)
    (machineId hostname filePath : String) (l tail : List Char)
    (h1 : '\n' ∉ l) (h2 : pyStripL (l ++ ['\n']) ≠ []) (h3 : tail ≠ []) :
    2 ≤ countRec
        (mkAgentRecord dateOk now machineId hostname filePath
          (String.mk (pyStripL (l ++ ['\n']))))
        ((checkFileForNewContent dateOk now machineId hostname filePath
            (some (l ++ '\n' :: tail)) 0).snd
          ++ (checkFileForNewContent dateOk now machineId hostname filePath
              (some (l ++ ['\n'])) (l ++ '\n' :: tail).length).snd) := by
  have hlen1 : 0 < (l ++ '\n' :: tail).length := by simp
  have hlen2 : (l ++ ['\n']).length < (l ++ '\n' :: tail).length := by
    have : 0 < tail.length := List.length_pos.mpr h3
    simp
    omega
  have htick1 : (checkFileForNewContent dateOk now machineId hostname filePath
      (some (l ++ '\n' :: tail)) 0).snd
        = forwardNewLines dateOk now machineId hostname filePath
            (l ++ '\n' :: tail) := by
    simp only [checkFileForNewContent]
    rw [if_neg (by omega : ¬(l ++ '\n' :: tail).length < 0),
      if_neg (by omega : ¬(l ++ '\n' :: tail).length ≤ 0), List.drop_zero]
  have htick2 : (checkFileForNewContent dateOk now machineId hostname filePath
      (some (l ++ ['\n'])) (l ++ '\n' :: tail).length).snd
        = forwardNewLines dateOk now machineId hostname filePath
            (l ++ ['\n']) := by
    simp only [checkFileForNewContent]
    rw [if_pos hlen2, if_neg (by simp : ¬(l ++ ['\n']).length ≤ 0),
      List.drop_zero]
  have hmem1 : mkAgentRecord dateOk now machineId hostname filePath
      (String.mk (pyStripL (l ++ ['\n'])))
        ∈ forwardNewLines dateOk now machineId hostname filePath
            (l ++ '\n' :: tail) := by
    simp only [forwardNewLines, splitFileLines_chunk l tail h1, List.map_cons,
      List.filter_cons]
    simp [h2]
  have hfwd2 : forwardNewLines dateOk now machineId hostname filePath
      (l ++ ['\n'])
        = [mkAgentRecord dateOk now machineId hostname filePath
            (String.mk (pyStripL (l ++ ['\n'])))] := by
    have : splitFileLines (l ++ ['\n']) = [l ++ ['\n']] := by
      have := splitFileLines_chunk l [] h1
      simpa [splitFileLines] using this
    simp [forwardNewLines, this, h2]
  rw [htick1, htick2, countRec_append, hfwd2]
  have hc1 := countRec_pos hmem1
  have hc2 : countRec
      (mkAgentRecord dateOk now machineId hostname filePath
        (String.mk (pyStripL (l ++ ['\n']))))
      [mkAgentRecord dateOk now machineId hostname filePath
        (String.mk (pyStripL (l ++ ['\n'])))] = 1 := by
    simp [countRec]
  omega

/-- Witness for the amended claim C2 at a concrete input: the
rotation replay of the line `dup` forwards it twice. -/
theorem c2_no_dedup_amended_witness :
    2 ≤ countRec
        (mkAgentRecord dateOkAll nowClock "m1" "h1" "/var/log/app.log"
          (String.mk (pyStripL (("dup").data ++ ['\n']))))
        ((checkFileForNewContent dateOkAll nowClock "m1" "h1" "/var/log/app.log"
            (some (("dup").data ++ '\n' :: ("more\n").data)) 0).snd
          ++ (checkFileForNewContent dateOkAll nowClock "m1" "h1"
              "/var/log/app.log" (some (("dup").data ++ ['\n']))
              (("dup").data ++ '\n' :: ("more\n").data).length).snd) :=
  c2_no_dedup_amended dateOkAll nowClock "m1" "h1" "/var/log/app.log"
    ("dup").data ("more\n").data (by decide) (by decide) (by decide)

/-! ## Claim C9 -/

/-- Claim C9: parser totality and defaults.  The embedded
`parse_line` is a total function (the only fallible call, dateutil,
is wrapped in try/except in the source); when no timestamp pattern
matches anywhere in the line the timestamp is the wall clock captured
at parse time, and when no level token is recognised the level is
INFO, with message and raw message both the stripped line. -/
theorem c9_parser_totality_defaults (dateOk : String → Bool) (now : Timestamp)
    (line : String)
    (hts : ∀ pat ∈ timestampPatterns, searchPat pat line.data = none)
    (hlv : extractLevel line = none) :
    parseLine dateOk now line
      = { timestamp := now, level := "INFO",
          message := pyStrip line, rawMessage := pyStrip line } := by
  have ht : extractTimestamp dateOk line = none :=
    extractTimestampAux_none dateOk line.data timestampPatterns hts
  simp [parseLine, ht, hlv]

/-- Witness for claim C9 at a concrete input with no recognisable
timestamp and no level token. -/
theorem c9_parser_totality_defaults_witness :
    parseLine dateOkAll (.wallClock 7) "hello world"
      = { timestamp := .wallClock 7, level := "INFO",
          message := "hello world", rawMessage := "hello world" } := by
  have h := c9_parser_totality_defaults dateOkAll (.wallClock 7) "hello world"
    (by decide) (by decide)
  rw [h]
  decide

/-! ## Claim C10 -/

/-- Claim C10: level normalisation.  Whenever the parser recognises a
level token (matched case-insensitively), the extracted level is the
normalisation of one of the alternation tokens — the uppercased token
with WARN mapped to WARNING and FATAL mapped to CRITICAL — hence the
extracted level, and the level field of every parsed record, is
always one of DEBUG, INFO, WARNING, ERROR, CRITICAL. -/
theorem c10_level_normalization :
    (∀ (line : String) (l : String), extractLevel line = some l →
        ∃ tok ∈ levelTokens, l = normalizeLevel tok)
    ∧ (∀ (line : String) (l : String), extractLevel line = some l →
        l ∈ ["DEBUG", "INFO", "WARNING", "ERROR", "CRITICAL"])
    ∧ (∀ (dateOk : String → Bool) (now : Timestamp) (line : String),
        (parseLine dateOk now line).level
          ∈ ["DEBUG", "INFO", "WARNING", "ERROR", "CRITICAL"]) := by
  have key : ∀ (line : String) (l : String), extractLevel line = some l →
      ∃ tok ∈ levelTokens, l = normalizeLevel tok := by
    intro line l h
    simp only [extractLevel] at h
    cases hw : searchLevelWord false line.data with
    | some tok =>
      rw [hw] at h
      exact ⟨tok, searchLevelWord_mem hw, (Option.some_inj.mp h).symm⟩
    | none =>
      rw [hw] at h
      cases hb : searchLevelBr line.data with
      | some tok =>
        rw [hb] at h
        exact ⟨tok, searchLevelBr_mem hb, (Option.some_inj.mp h).symm⟩
      | none =>
        rw [hb] at h
        exact absurd h (by simp)
  have mem5 : ∀ (line l : String), extractLevel line = some l →
      l ∈ ["DEBUG", "INFO", "WARNING", "ERROR", "CRITICAL"] := by
    intro line l h
    obtain ⟨tok, htok, rfl⟩ := key line l h
    exact normalizeLevel_mem htok
  refine ⟨key, mem5, ?_⟩
  intro dateOk now line
  cases ht : extractTimestamp dateOk line <;> cases hl : extractLevel line <;>
      simp only [parseLine, ht, hl] <;>
    first
      | decide
      | exact mem5 line _ hl

/-- Witness for claim C10 at a concrete input: the lowercase token
`warn` is recognised and normalised to WARNING. -/
theorem c10_level_normalization_witness :
    "WARNING" ∈ ["DEBUG", "INFO", "WARNING", "ERROR", "CRITICAL"]
    ∧ extractLevel "a warn b" = some "WARNING" :=
  ⟨c10_level_normalization.2.1 "a warn b" "WARNING" (by decide), by decide⟩

end ObsAgent
